/-
Verification of the DNS failover decision engine (dns_failover.py).

The engine (class DNSFailover) is shallowly embedded: its mutable state
(`current_active_server`, `failure_counts`, plus the DNS record held by the
external store and a log of the update requests the engine issues) is a
`World`, and each method becomes a state-passing function.  External
collaborators (the health prober and the Cloudflare DNS store) are modelled
by an `Env`: a per-cycle reachability oracle keyed by (ip, port) — the
probe method and http path are fixed per configuration, so the oracle is
the composite of ServerMonitor.check_server with the monitoring settings —
and two flags saying whether the store's read and write succeed this cycle.
-/
import Mathlib

namespace DNSFailover

/-- One entry of config["servers"]: name (dict key), ip, port, priority.
Python dicts preserve insertion order, so the server map is a list. -/
structure ServerConfig where
  name : String
  ip : String
  port : Nat
  priority : Int
deriving DecidableEq, Repr

/-- The parts of the configuration the engine reads. -/
structure Config where
  servers : List ServerConfig
  failureThreshold : Nat
  domainName : String
  recordType : String
  ttl : Nat
deriving DecidableEq, Repr

/-- A DNS record as returned by CloudflareAPI.get_dns_record (the fields
the engine reads: id, type, content, ttl; the name is always the configured
domain). -/
structure DNSRecord where
  id : String
  rtype : String
  content : String
  ttl : Nat
deriving DecidableEq, Repr

/-- The argument tuple of one call to CloudflareAPI.update_dns_record. -/
structure UpdateRequest where
  recordId : String
  domainName : String
  content : String
  rtype : String
  ttl : Nat
deriving DecidableEq, Repr

/-- External world for one cycle: the probe verdicts and whether the DNS
store's read/write succeed. -/
structure Env where
  probe : String → Nat → Bool
  getOk : Bool
  updateOk : Bool

/-- Engine state plus the store's record and the log of issued updates. -/
structure World where
  active : Option String
  counts : String → Nat
  record : Option DNSRecord
  writeLog : List UpdateRequest

/-- Python dict lookup self.config["servers"][name] (first entry with that
name; dict keys are unique, which theorems assume as Nodup where needed). -/
def findServer (servers : List ServerConfig) (name : String) : Option ServerConfig :=
  servers.find? (fun sc => sc.name == name)

/-- Python min(items, key=priority): fold keeping the current best,
replacing it only on a strictly smaller key, so the first minimum wins. -/
def pyMinServer : List ServerConfig → Option ServerConfig
  | [] => none
  | s :: rest =>
      some (rest.foldl (fun best x => if x.priority < best.priority then x else best) s)

/-- _get_highest_priority_server: name of the min-priority server. -/
def getHighestPriorityServer (servers : List ServerConfig) : Option String :=
  (pyMinServer servers).map (·.name)

/-- Comparison used by sorted(..., key=lambda x: x[1]["priority"]). -/
def priLE (x y : ServerConfig) : Prop := x.priority ≤ y.priority

instance : DecidableRel priLE := fun x y =>
  inferInstanceAs (Decidable (x.priority ≤ y.priority))

instance : IsTotal ServerConfig priLE := ⟨fun x y => Int.le_total x.priority y.priority⟩

instance : IsTrans ServerConfig priLE := ⟨fun _ _ _ h1 h2 => le_trans h1 h2⟩

/-- Python sorted(servers, key=priority): a stable sort by priority. -/
def sortServers (servers : List ServerConfig) : List ServerConfig :=
  List.insertionSort priLE servers

/-- CloudflareAPI.get_dns_record(domain, type): None on transport error
(getOk = false) or when no record of the queried type exists. -/
def getDnsRecord (cfg : Config) (env : Env) (store : Option DNSRecord) : Option DNSRecord :=
  if env.getOk then
    match store with
    | some r => if r.rtype = cfg.recordType then some r else none
    | none => none
  else none

/-- _check_server_health(name): probes the server and mutates its failure
count — reset to 0 when healthy, incremented when unhealthy. -/
def checkServerHealth (env : Env) (w : World) (sc : ServerConfig) : Bool × World :=
  if env.probe sc.ip sc.port then
    (true, { w with counts := fun t => if t = sc.name then 0 else w.counts t })
  else
    (false, { w with counts := fun t => if t = sc.name then w.counts sc.name + 1 else w.counts t })

/-- Loop body of _get_next_available_server over the priority-sorted list:
skip the current active server, probe the rest in order, return the first
healthy one.  Probing goes through _check_server_health, so it mutates the
probed servers' failure counts. -/
def selectGo (env : Env) : List ServerConfig → World → Option String × World
  | [], w => (none, w)
  | sc :: rest, w =>
      if some sc.name = w.active then selectGo env rest w
      else
        let r := checkServerHealth env w sc
        if r.1 then (some sc.name, r.2) else selectGo env rest r.2

/-- _get_next_available_server. -/
def getNextAvailableServer (cfg : Config) (env : Env) (w : World) : Option String × World :=
  selectGo env (sortServers cfg.servers) w

/-- CloudflareAPI.update_dns_record: logs the issued request; on success
the stored record becomes the written one. -/
def updateDnsRecord (env : Env) (w : World) (req : UpdateRequest) : Bool × World :=
  let w1 := { w with writeLog := w.writeLog ++ [req] }
  if env.updateOk then
    (true, { w1 with record := some ⟨req.recordId, req.rtype, req.content, req.ttl⟩ })
  else
    (false, w1)

/-- _switch_to_server(new_server): re-fetch the record (abort on failure),
issue the update with the configured type and ttl, and only on confirmed
success set the active server and reset its failure count.  A missing
server name raises KeyError, caught by the surrounding try — state
unchanged, False returned. -/
def switchToServer (cfg : Config) (env : Env) (w : World) (newServer : String) : Bool × World :=
  match findServer cfg.servers newServer with
  | none => (false, w)
  | some sc =>
      match getDnsRecord cfg env w.record with
      | none => (false, w)
      | some rec =>
          let r := updateDnsRecord env w ⟨rec.id, cfg.domainName, sc.ip, cfg.recordType, cfg.ttl⟩
          if r.1 then
            (true, { r.2 with
                       active := some newServer,
                       counts := fun t => if t = newServer then 0 else r.2.counts t })
          else
            (false, r.2)

/-- check_and_failover: one evaluation cycle.  Python truthiness: an unset
(None) or empty-string active server aborts the cycle; a missing config
entry raises KeyError, caught by the surrounding try (state unchanged). -/
def checkAndFailover (cfg : Config) (env : Env) (w : World) : World :=
  match w.active with
  | none => w
  | some a =>
      if a = "" then w
      else
        match findServer cfg.servers a with
        | none => w
        | some asc =>
            let r := checkServerHealth env w asc
            if r.1 then r.2
            else if cfg.failureThreshold ≤ r.2.counts a then
              match getNextAvailableServer cfg env r.2 with
              | (some next, w2) => (switchToServer cfg env w2 next).2
              | (none, w2) => w2
            else r.2

/-- A sequence of cycles, one Env per cycle (reachability and store
availability may change between cycles). -/
def runCycles (cfg : Config) (es : List Env) (w : World) : World :=
  es.foldl (fun w e => checkAndFailover cfg e w) w

/-- One per-server entry of the get_status snapshot. -/
structure StatusEntry where
  name : String
  ip : String
  port : Nat
  priority : Int
  healthy : Bool
  failureCount : Nat
deriving DecidableEq, Repr

/-- The get_status snapshot (the wall-clock timestamp is outside the
model). -/
structure Status where
  currentActiveServer : Option String
  servers : List StatusEntry

/-- Loop of get_status: probes every configured server via
_check_server_health (mutating its count) and reports the post-probe
count. -/
def statusGo (env : Env) : List ServerConfig → World → List StatusEntry × World
  | [], w => ([], w)
  | sc :: rest, w =>
      let r := checkServerHealth env w sc
      let e : StatusEntry := ⟨sc.name, sc.ip, sc.port, sc.priority, r.1, r.2.counts sc.name⟩
      let rest' := statusGo env rest r.2
      (e :: rest'.1, rest'.2)

/-- get_status. -/
def getStatus (cfg : Config) (env : Env) (w : World) : Status × World :=
  let r := statusGo env cfg.servers w
  (⟨w.active, r.1⟩, r.2)

/-- _determine_current_active_server: fetch the record; on a content match
set that server and return at once; otherwise (no record, no match, or a
read error) fall back to the min-priority server. -/
def determineActiveServer (cfg : Config) (env : Env) (store : Option DNSRecord) : Option String :=
  match getDnsRecord cfg env store with
  | some rec =>
      match cfg.servers.find? (fun sc => sc.ip == rec.content) with
      | some sc => some sc.name
      | none => getHighestPriorityServer cfg.servers
  | none => getHighestPriorityServer cfg.servers

/-- DNSFailover.__init__: zero every failure counter and resolve the
initial active server from the store; no write is issued. -/
def initWorld (cfg : Config) (env : Env) (store : Option DNSRecord) : World :=
  { active := determineActiveServer cfg env store,
    counts := fun _ => 0,
    record := store,
    writeLog := [] }

/-! ### Helper lemmas -/

theorem findServer_name {l : List ServerConfig} {a : String} {sc : ServerConfig}
    (h : findServer l a = some sc) : sc.name = a := by
  have := List.find?_some h
  simpa using this

theorem findServer_mem {l : List ServerConfig} {a : String} {sc : ServerConfig}
    (h : findServer l a = some sc) : sc ∈ l :=
  List.mem_of_find?_eq_some h

theorem checkServerHealth_fst (env : Env) (w : World) (sc : ServerConfig) :
    (checkServerHealth env w sc).1 = env.probe sc.ip sc.port := by
  unfold checkServerHealth
  cases h : env.probe sc.ip sc.port <;> simp [h]

theorem checkServerHealth_frame (env : Env) (w : World) (sc : ServerConfig) :
    (checkServerHealth env w sc).2.active = w.active ∧
    (checkServerHealth env w sc).2.record = w.record ∧
    (checkServerHealth env w sc).2.writeLog = w.writeLog := by
  unfold checkServerHealth
  cases h : env.probe sc.ip sc.port <;> simp [h]

theorem checkServerHealth_counts_other (env : Env) (w : World) (sc : ServerConfig)
    (t : String) (ht : t ≠ sc.name) :
    (checkServerHealth env w sc).2.counts t = w.counts t := by
  unfold checkServerHealth
  cases h : env.probe sc.ip sc.port <;> simp [h, ht]

/-- A healthy probe of the first server named `a` resets exactly that
count to 0. -/
theorem healthy_cycle (cfg : Config) (env : Env) (w : World) (a : String)
    (asc : ServerConfig)
    (ha : w.active = some a) (hne : a ≠ "")
    (hfind : findServer cfg.servers a = some asc)
    (hprobe : env.probe asc.ip asc.port = true) :
    checkAndFailover cfg env w =
      { w with counts := fun t => if t = a then 0 else w.counts t } := by
  have hname : asc.name = a := findServer_name hfind
  unfold checkAndFailover
  rw [ha]
  simp [hne, hfind, checkServerHealth, hprobe, hname, ha]

/-- An unhealthy probe below threshold bumps exactly the active count. -/
theorem unhealthy_cycle_noTrip (cfg : Config) (env : Env) (w : World) (a : String)
    (asc : ServerConfig)
    (ha : w.active = some a) (hne : a ≠ "")
    (hfind : findServer cfg.servers a = some asc)
    (hprobe : env.probe asc.ip asc.port = false)
    (hlt : w.counts a + 1 < cfg.failureThreshold) :
    checkAndFailover cfg env w =
      { w with counts := fun t => if t = a then w.counts a + 1 else w.counts t } := by
  have hname : asc.name = a := findServer_name hfind
  unfold checkAndFailover
  rw [ha]
  have hnotrip : ¬ cfg.failureThreshold ≤ w.counts a + 1 := by omega
  simp [hne, hfind, checkServerHealth, hprobe, hname, hnotrip, ha]

/-- Candidate probing never touches the active pointer, the stored record
or the write log (it only probes and mutates counters). -/
theorem selectGo_frame (env : Env) (l : List ServerConfig) (w : World) :
    (selectGo env l w).2.active = w.active ∧
    (selectGo env l w).2.record = w.record ∧
    (selectGo env l w).2.writeLog = w.writeLog := by
  induction l generalizing w with
  | nil => simp [selectGo]
  | cons sc rest ih =>
      unfold selectGo
      by_cases hskip : some sc.name = w.active
      · simpa [hskip] using ih w
      · have hcf := checkServerHealth_frame env w sc
        cases hp : (checkServerHealth env w sc).1
        · have := ih (checkServerHealth env w sc).2
          simp only [hskip, if_neg, hp, if_false, ite_false]
          simp only [hskip, ite_false] at *
          refine ⟨?_, ?_, ?_⟩ <;> simp [hp, this.1, this.2.1, this.2.2, hcf.1, hcf.2.1, hcf.2.2]
        · simp [hskip, hp, hcf.1, hcf.2.1, hcf.2.2]

/-- The selection returns the first sorted server that is not the active
one and probes healthy. -/
theorem selectGo_result (env : Env) (l : List ServerConfig) (w : World) (a : String)
    (ha : w.active = some a) :
    (selectGo env l w).1 =
      (l.find? (fun sc => !(sc.name == a) && env.probe sc.ip sc.port)).map (·.name) := by
  induction l generalizing w with
  | nil => simp [selectGo]
  | cons sc rest ih =>
      unfold selectGo
      by_cases hskip : some sc.name = w.active
      · have hn : sc.name = a := by
          rw [ha] at hskip
          exact Option.some_injective _ hskip
        have hpred : (!(sc.name == a) && env.probe sc.ip sc.port) = false := by
          simp [hn]
        rw [List.find?_cons_of_neg _ (by simp [hpred])]
        simpa [hskip] using ih w ha
      · have hn : sc.name ≠ a := by
          intro h
          exact hskip (by rw [ha, h])
        cases hp : (checkServerHealth env w sc).1
        · have hprobe : env.probe sc.ip sc.port = false := by
            rw [checkServerHealth_fst] at hp
            exact hp
          have hpred : (!(sc.name == a) && env.probe sc.ip sc.port) = false := by
            simp [hprobe]
          rw [List.find?_cons_of_neg _ (by simp [hpred])]
          have ha' : (checkServerHealth env w sc).2.active = some a := by
            rw [(checkServerHealth_frame env w sc).1, ha]
          simpa [hskip, hp] using ih (checkServerHealth env w sc).2 ha'
        · have hprobe : env.probe sc.ip sc.port = true := by
            rw [checkServerHealth_fst] at hp
            exact hp
          have hpred : (!(sc.name == a) && env.probe sc.ip sc.port) = true := by
            simp [hn, hprobe]
          rw [List.find?_cons_of_pos _ (by simp [hn, hprobe])]
          simp [hskip, hp]

/-- On a sorted list, find? returns an element whose priority is minimal
among all elements satisfying the predicate. -/
theorem find?_sorted_min (p : ServerConfig → Bool) (l : List ServerConfig)
    (hs : List.Sorted priLE l) (x : ServerConfig) (hx : l.find? p = some x) :
    ∀ y ∈ l, p y = true → x.priority ≤ y.priority := by
  induction l with
  | nil => simp at hx
  | cons z zs ih =>
      rw [List.sorted_cons] at hs
      intro y hy hpy
      cases hpz : p z
      · rw [List.find?_cons_of_neg _ (by simp [hpz])] at hx
        rcases List.mem_cons.mp hy with rfl | hy'
        · rw [hpy] at hpz; cases hpz
        · exact ih hs.2 hx y hy' hpy
      · rw [List.find?_cons_of_pos _ hpz] at hx
        have hz : x = z := by injection hx with h; exact h.symm
        subst hz
        rcases List.mem_cons.mp hy with rfl | hy'
        · exact le_refl _
        · exact hs.1 y hy'

/-- With pairwise-distinct names (dict keys), looking up a member's name
finds that member. -/
theorem findServer_eq_of_mem (l : List ServerConfig)
    (hnodup : (l.map (·.name)).Nodup) (sc : ServerConfig) (h : sc ∈ l) :
    findServer l sc.name = some sc := by
  induction l with
  | nil => simp at h
  | cons t rest ih =>
      rw [List.map_cons, List.nodup_cons] at hnodup
      rcases List.mem_cons.mp h with rfl | h'
      · unfold findServer
        rw [List.find?_cons_of_pos _ (by simp)]
      · have hne : t.name ≠ sc.name := by
          intro hcontra
          exact hnodup.1 (hcontra ▸ List.mem_map_of_mem (·.name) h')
        unfold findServer
        rw [List.find?_cons_of_neg _ (by simp [hne])]
        exact ih hnodup.2 h'

/-- Membership transfers through the priority sort. -/
theorem mem_sortServers {sc : ServerConfig} {l : List ServerConfig} :
    sc ∈ sortServers l ↔ sc ∈ l :=
  (List.perm_insertionSort priLE l).mem_iff

/-- The fold inside pyMinServer (Python min: replace only on strictly
smaller key, so ties keep the earlier element). -/
def pyMinFold (best : ServerConfig) (l : List ServerConfig) : ServerConfig :=
  l.foldl (fun b x => if x.priority < b.priority then x else b) best

theorem pyMinServer_cons (s : ServerConfig) (rest : List ServerConfig) :
    pyMinServer (s :: rest) = some (pyMinFold s rest) := rfl

theorem pyMinFold_cons (best x : ServerConfig) (xs : List ServerConfig) :
    pyMinFold best (x :: xs) =
      pyMinFold (if x.priority < best.priority then x else best) xs := by
  unfold pyMinFold
  rw [List.foldl_cons]

theorem pyMinFold_mem (best : ServerConfig) (l : List ServerConfig) :
    pyMinFold best l ∈ best :: l := by
  induction l generalizing best with
  | nil => simp [pyMinFold]
  | cons x xs ih =>
      rw [pyMinFold_cons]
      by_cases hx : x.priority < best.priority
      · rw [if_pos hx]
        rcases List.mem_cons.mp (ih x) with h | h
        · rw [h]
          exact List.mem_cons.mpr (Or.inr (List.mem_cons_self x xs))
        · exact List.mem_cons.mpr (Or.inr (List.mem_cons.mpr (Or.inr h)))
      · rw [if_neg hx]
        rcases List.mem_cons.mp (ih best) with h | h
        · rw [h]
          exact List.mem_cons_self best (x :: xs)
        · exact List.mem_cons.mpr (Or.inr (List.mem_cons.mpr (Or.inr h)))

theorem pyMinFold_le_best (best : ServerConfig) (l : List ServerConfig) :
    (pyMinFold best l).priority ≤ best.priority := by
  induction l generalizing best with
  | nil => simp [pyMinFold]
  | cons x xs ih =>
      rw [pyMinFold_cons]
      by_cases hx : x.priority < best.priority
      · rw [if_pos hx]
        exact le_trans (ih x) (le_of_lt hx)
      · rw [if_neg hx]
        exact ih best

theorem pyMinFold_le (best : ServerConfig) (l : List ServerConfig) :
    ∀ x ∈ l, (pyMinFold best l).priority ≤ x.priority := by
  induction l generalizing best with
  | nil => simp
  | cons x xs ih =>
      intro y hy
      rw [pyMinFold_cons]
      rcases List.mem_cons.mp hy with rfl | hy'
      · by_cases hx : y.priority < best.priority
        · rw [if_pos hx]
          exact pyMinFold_le_best y xs
        · rw [if_neg hx]
          exact le_trans (pyMinFold_le_best best xs) (not_lt.mp hx)
      · by_cases hx : x.priority < best.priority
        · rw [if_pos hx]
          exact ih x y hy'
        · rw [if_neg hx]
          exact ih best y hy'

/-- Python min keeps the first of several minimal-priority entries: the
result is the first list element attaining the minimal priority. -/
theorem pyMinFold_find? (best : ServerConfig) (l : List ServerConfig) :
    (best :: l).find? (fun sc => sc.priority == (pyMinFold best l).priority) =
      some (pyMinFold best l) := by
  induction l generalizing best with
  | nil =>
      have h0 : pyMinFold best [] = best := rfl
      rw [h0]
      exact @List.find?_cons_of_pos _ (fun sc => sc.priority == best.priority) best [] (by simp)
  | cons x xs ih =>
      by_cases hx : x.priority < best.priority
      · have hm : pyMinFold best (x :: xs) = pyMinFold x xs := by
          rw [pyMinFold_cons, if_pos hx]
        have hlt : (pyMinFold x xs).priority < best.priority :=
          lt_of_le_of_lt (pyMinFold_le_best x xs) hx
        rw [hm]
        rw [@List.find?_cons_of_neg _ (fun sc => sc.priority == (pyMinFold x xs).priority)
              best (x :: xs) (by simp; omega)]
        exact ih x
      · have hm : pyMinFold best (x :: xs) = pyMinFold best xs := by
          rw [pyMinFold_cons, if_neg hx]
        have hih := ih best
        rw [hm]
        by_cases hb : (best.priority == (pyMinFold best xs).priority) = true
        · have hbest : pyMinFold best xs = best := by
            rw [@List.find?_cons_of_pos _ (fun sc => sc.priority == (pyMinFold best xs).priority)
                  best xs hb] at hih
            injection hih with h
            exact h.symm
          rw [hbest]
          exact @List.find?_cons_of_pos _ (fun sc => sc.priority == best.priority)
            best (x :: xs) (by simp)
        · have hlt : (pyMinFold best xs).priority < best.priority := by
            have hle := pyMinFold_le_best best xs
            simp only [beq_iff_eq] at hb
            omega
          have hxge : ¬ (x.priority == (pyMinFold best xs).priority) = true := by
            simp only [beq_iff_eq]
            have : best.priority ≤ x.priority := not_lt.mp hx
            omega
          rw [@List.find?_cons_of_neg _ (fun sc => sc.priority == (pyMinFold best xs).priority)
                best xs hb] at hih
          rw [@List.find?_cons_of_neg _ (fun sc => sc.priority == (pyMinFold best xs).priority)
                best (x :: xs) hb]
          rw [@List.find?_cons_of_neg _ (fun sc => sc.priority == (pyMinFold best xs).priority)
                x xs hxge]
          exact hih

/-- statusGo: active/record/log untouched, the reported static fields and
health verdicts mirror the configuration and the probes, and a healthy
verdict is always reported with count 0. -/
theorem statusGo_spec (env : Env) (l : List ServerConfig) (w : World) :
    (statusGo env l w).2.active = w.active ∧
    (statusGo env l w).2.record = w.record ∧
    (statusGo env l w).2.writeLog = w.writeLog ∧
    (statusGo env l w).1.map (fun e => (e.name, e.ip, e.port, e.priority, e.healthy)) =
      l.map (fun sc => (sc.name, sc.ip, sc.port, sc.priority, env.probe sc.ip sc.port)) ∧
    ∀ e ∈ (statusGo env l w).1, e.healthy = true → e.failureCount = 0 := by
  induction l generalizing w with
  | nil => simp [statusGo]
  | cons sc rest ih =>
      have hcf := checkServerHealth_frame env w sc
      have hfst := checkServerHealth_fst env w sc
      have hih := ih (checkServerHealth env w sc).2
      refine ⟨?_, ?_, ?_, ?_, ?_⟩
      · simpa [statusGo, hih.1] using hcf.1
      · simpa [statusGo, hih.2.1] using hcf.2.1
      · simpa [statusGo, hih.2.2.1] using hcf.2.2
      · simp [statusGo, hih.2.2.2.1, hfst]
      · intro e he hhe
        simp only [statusGo, List.mem_cons] at he
        rcases he with rfl | he'
        · simp only at hhe
          rw [hfst] at hhe
          simp [checkServerHealth, hhe]
        · exact hih.2.2.2.2 e he' hhe

theorem runCycles_nil (cfg : Config) (w : World) : runCycles cfg [] w = w := rfl

theorem runCycles_cons (cfg : Config) (e : Env) (es : List Env) (w : World) :
    runCycles cfg (e :: es) w = runCycles cfg es (checkAndFailover cfg e w) := rfl

theorem runCycles_append (cfg : Config) (es fs : List Env) (w : World) :
    runCycles cfg (es ++ fs) w = runCycles cfg fs (runCycles cfg es w) := by
  unfold runCycles
  rw [List.foldl_append]

/-- A run of consecutive unhealthy probes of the active server that stays
below the threshold: only the active server's count moves, by exactly the
number of cycles. -/
theorem degraded_run (cfg : Config) (es : List Env) (w : World) (a : String)
    (asc : ServerConfig)
    (ha : w.active = some a) (hne : a ≠ "")
    (hfind : findServer cfg.servers a = some asc)
    (hprobe : ∀ e ∈ es, e.probe asc.ip asc.port = false)
    (hlt : w.counts a + es.length < cfg.failureThreshold) :
    (runCycles cfg es w).active = w.active ∧
    (runCycles cfg es w).counts a = w.counts a + es.length ∧
    (∀ s, s ≠ a → (runCycles cfg es w).counts s = w.counts s) ∧
    (runCycles cfg es w).record = w.record ∧
    (runCycles cfg es w).writeLog = w.writeLog := by
  induction es generalizing w with
  | nil => simp [runCycles_nil]
  | cons e es ih =>
      have hp : e.probe asc.ip asc.port = false := hprobe e (List.mem_cons_self e es)
      have hlt1 : w.counts a + 1 < cfg.failureThreshold := by
        have := hlt
        simp only [List.length_cons] at this
        omega
      have hcyc := unhealthy_cycle_noTrip cfg e w a asc ha hne hfind hp hlt1
      rw [runCycles_cons, hcyc]
      set w' : World :=
        { w with counts := fun t => if t = a then w.counts a + 1 else w.counts t } with hw'
      have ha' : w'.active = some a := ha
      have hc' : w'.counts a = w.counts a + 1 := by simp [hw']
      have hlt' : w'.counts a + es.length < cfg.failureThreshold := by
        rw [hc']
        simp only [List.length_cons] at hlt
        omega
      have hih := ih w' ha' (fun e' he' => hprobe e' (List.mem_cons_of_mem e he')) hlt'
      have hwa : w'.active = w.active := rfl
      have hwr : w'.record = w.record := rfl
      have hwl : w'.writeLog = w.writeLog := rfl
      refine ⟨?_, ?_, ?_, ?_, ?_⟩
      · rw [hih.1, hwa]
      · rw [hih.2.1, hc']
        simp only [List.length_cons]
        omega
      · intro s hs
        rw [hih.2.2.1 s hs]
        simp [hw', hs]
      · rw [hih.2.2.2.1, hwr]
      · rw [hih.2.2.2.2, hwl]

/-- An unhealthy probe of the active server that reaches the threshold
hands over to candidate selection and, when a candidate is found, to the
switch executor. -/
theorem unhealthy_cycle_trip (cfg : Config) (env : Env) (w : World) (a : String)
    (asc : ServerConfig)
    (ha : w.active = some a) (hne : a ≠ "")
    (hfind : findServer cfg.servers a = some asc)
    (hprobe : env.probe asc.ip asc.port = false)
    (htrip : cfg.failureThreshold ≤ w.counts a + 1) :
    checkAndFailover cfg env w =
      (match getNextAvailableServer cfg env
          { w with counts := fun t =>
              if t = asc.name then w.counts asc.name + 1 else w.counts t } with
       | (some next, w2) => (switchToServer cfg env w2 next).2
       | (none, w2) => w2) := by
  have hname : asc.name = a := findServer_name hfind
  unfold checkAndFailover
  rw [ha]
  simp only [if_neg hne, hfind]
  simp only [checkServerHealth, hprobe, Bool.false_eq_true, if_false, ite_false]
  rw [if_pos]
  · simp only [hname, if_pos rfl]
    rw [ha]
  · simp only [hname, if_pos rfl]
    exact htrip

/-- The cycle in which the threshold is reached, a candidate probes
healthy, and the store's read and write both succeed: the engine switches
to the first healthy non-active server in priority order. -/
theorem tripped_cycle_switch (cfg : Config) (env : Env) (w : World) (a : String)
    (asc : ServerConfig) (rec : DNSRecord)
    (ha : w.active = some a) (hne : a ≠ "")
    (hfind : findServer cfg.servers a = some asc)
    (hnodup : (cfg.servers.map (·.name)).Nodup)
    (hprobe : env.probe asc.ip asc.port = false)
    (htrip : cfg.failureThreshold ≤ w.counts a + 1)
    (hrec : w.record = some rec) (hrt : rec.rtype = cfg.recordType)
    (hget : env.getOk = true) (hupd : env.updateOk = true)
    (hcand : ∃ sc ∈ cfg.servers, sc.name ≠ a ∧ env.probe sc.ip sc.port = true) :
    ∃ winner ∈ cfg.servers,
      winner.name ≠ a ∧ env.probe winner.ip winner.port = true ∧
      (∀ sc ∈ cfg.servers, sc.name ≠ a → env.probe sc.ip sc.port = true →
        winner.priority ≤ sc.priority) ∧
      (checkAndFailover cfg env w).active = some winner.name ∧
      (checkAndFailover cfg env w).counts winner.name = 0 ∧
      (checkAndFailover cfg env w).record =
        some ⟨rec.id, cfg.recordType, winner.ip, cfg.ttl⟩ := by
  classical
  have hname : asc.name = a := findServer_name hfind
  -- the state after the unhealthy probe of the active server
  set w1 : World :=
    { w with counts := fun t => if t = asc.name then w.counts asc.name + 1 else w.counts t }
    with hw1
  have hw1a : w1.active = some a := ha
  have hw1rec : w1.record = some rec := hrec
  -- the selection predicate and its first hit on the sorted list
  set p : ServerConfig → Bool := fun sc => !(sc.name == a) && env.probe sc.ip sc.port with hp
  have hsorted : List.Sorted priLE (sortServers cfg.servers) :=
    List.sorted_insertionSort priLE cfg.servers
  obtain ⟨sc0, hsc0mem, hsc0ne, hsc0probe⟩ := hcand
  have hsc0mem' : sc0 ∈ sortServers cfg.servers := mem_sortServers.mpr hsc0mem
  have hfound : (sortServers cfg.servers).find? p ≠ none := by
    intro hnone
    have := List.find?_eq_none.mp hnone sc0 hsc0mem'
    apply this
    simp [hp, hsc0ne, hsc0probe]
  obtain ⟨winner, hwin⟩ := Option.ne_none_iff_exists'.mp hfound
  have hwinmem : winner ∈ cfg.servers :=
    mem_sortServers.mp (List.mem_of_find?_eq_some hwin)
  have hwinp : p winner = true := List.find?_some hwin
  have hwinne : winner.name ≠ a := by
    intro hcontra
    simp [hp, hcontra] at hwinp
  have hwinprobe : env.probe winner.ip winner.port = true := by
    simp [hp] at hwinp
    exact hwinp.2
  have hwinmin : ∀ sc ∈ cfg.servers, sc.name ≠ a → env.probe sc.ip sc.port = true →
      winner.priority ≤ sc.priority := by
    intro sc hscmem hscne hscprobe
    exact find?_sorted_min p (sortServers cfg.servers) hsorted winner hwin sc
      (mem_sortServers.mpr hscmem) (by simp [hp, hscne, hscprobe])
  -- the selection call
  have hsel1 : (selectGo env (sortServers cfg.servers) w1).1 = some winner.name := by
    rw [selectGo_result env (sortServers cfg.servers) w1 a hw1a, hwin]
    rfl
  set w2 : World := (selectGo env (sortServers cfg.servers) w1).2 with hw2
  have hw2frame := selectGo_frame env (sortServers cfg.servers) w1
  have hw2rec : w2.record = some rec := by
    rw [hw2, hw2frame.2.1]
    exact hw1rec
  -- the switch call
  have hfindwin : findServer cfg.servers winner.name = some winner :=
    findServer_eq_of_mem cfg.servers hnodup winner hwinmem
  have hgetrec : getDnsRecord cfg env w2.record = some rec := by
    rw [hw2rec]
    simp [getDnsRecord, hget, hrt]
  have hswitch : switchToServer cfg env w2 winner.name =
      (true, { active := some winner.name,
               counts := fun t => if t = winner.name then 0 else w2.counts t,
               record := some ⟨rec.id, cfg.recordType, winner.ip, cfg.ttl⟩,
               writeLog := w2.writeLog ++
                 [⟨rec.id, cfg.domainName, winner.ip, cfg.recordType, cfg.ttl⟩] }) := by
    unfold switchToServer
    rw [hfindwin, hgetrec]
    simp [updateDnsRecord, hupd]
  -- assemble the cycle
  have hsel : getNextAvailableServer cfg env w1 = (some winner.name, w2) := by
    unfold getNextAvailableServer
    rw [hw2]
    exact Prod.ext hsel1 rfl
  have hcycle : checkAndFailover cfg env w = (switchToServer cfg env w2 winner.name).2 := by
    rw [unhealthy_cycle_trip cfg env w a asc ha hne hfind hprobe htrip]
    rw [← hw1, hsel]
  refine ⟨winner, hwinmem, hwinne, hwinprobe, hwinmin, ?_, ?_, ?_⟩
  · rw [hcycle, hswitch]
  · rw [hcycle, hswitch]
    simp
  · rw [hcycle, hswitch]

/-! ### Concrete fixtures for witnesses and counterexamples -/

def srvA : ServerConfig := ⟨"alpha", "10.0.0.1", 80, 1⟩

def srvB : ServerConfig := ⟨"beta", "10.0.0.2", 80, 2⟩

def srvC : ServerConfig := ⟨"gamma", "10.0.0.3", 80, 3⟩

def srvD : ServerConfig := ⟨"delta", "10.0.0.4", 80, 1⟩

def cfg0 : Config := ⟨[srvA, srvB, srvC], 2, "example.com", "A", 300⟩

def rec0 : DNSRecord := ⟨"rid0", "A", "10.0.0.1", 600⟩

def w0 : World := ⟨some "alpha", fun _ => 0, some rec0, []⟩

/-- Like w0 but alpha already one failed probe short of the threshold. -/
def wDeg : World := ⟨some "alpha", fun t => if t = "alpha" then 1 else 0, some rec0, []⟩

/-- alpha unreachable, beta and gamma reachable; store fully available. -/
def envDownA : Env := ⟨fun ip _ => ip == "10.0.0.2" || ip == "10.0.0.3", true, true⟩

def envAllDown : Env := ⟨fun _ _ => false, true, true⟩

def envAllUp : Env := ⟨fun _ _ => true, true, true⟩

/-- store rejects the update. -/
def envNoWrite : Env := ⟨fun _ _ => true, true, false⟩

/-! ### Claims -/

/-- C7: a cycle in which the active server probes healthy resets its
failure count to 0, leaves the active pointer, every other count, the DNS
record and the write log unchanged (healthy cycles are no-ops beyond the
reset). -/
theorem c7_healthy_cycle_noop (cfg : Config) (env : Env) (w : World) (a : String)
    (asc : ServerConfig)
    (ha : w.active = some a) (hne : a ≠ "")
    (hfind : findServer cfg.servers a = some asc)
    (hprobe : env.probe asc.ip asc.port = true) :
    (checkAndFailover cfg env w).counts a = 0 ∧
    (checkAndFailover cfg env w).active = w.active ∧
    (∀ s, s ≠ a → (checkAndFailover cfg env w).counts s = w.counts s) ∧
    (checkAndFailover cfg env w).record = w.record ∧
    (checkAndFailover cfg env w).writeLog = w.writeLog := by
  rw [healthy_cycle cfg env w a asc ha hne hfind hprobe]
  refine ⟨by simp, rfl, ?_, rfl, rfl⟩
  intro s hs
  simp [hs]

theorem c7_healthy_cycle_noop_witness :
    (checkAndFailover cfg0 envAllUp w0).counts "alpha" = 0 ∧
    (checkAndFailover cfg0 envAllUp w0).active = w0.active ∧
    (checkAndFailover cfg0 envAllUp w0).counts "beta" = w0.counts "beta" ∧
    (checkAndFailover cfg0 envAllUp w0).record = w0.record ∧
    (checkAndFailover cfg0 envAllUp w0).writeLog = w0.writeLog := by
  have h := c7_healthy_cycle_noop cfg0 envAllUp w0 "alpha" srvA rfl (by decide) (by decide)
    (by decide)
  exact ⟨h.1, h.2.1, h.2.2.1 "beta" (by decide), h.2.2.2.1, h.2.2.2.2⟩

/-- C8: N consecutive cycles with the active server probing unhealthy,
starting from count 0 with N below the threshold: no switch (record and
write log untouched), count exactly N, active pointer unchanged. -/
theorem c8_degraded_cycles (cfg : Config) (es : List Env) (w : World) (a : String)
    (asc : ServerConfig)
    (ha : w.active = some a) (hne : a ≠ "")
    (hfind : findServer cfg.servers a = some asc)
    (hzero : w.counts a = 0)
    (hprobe : ∀ e ∈ es, e.probe asc.ip asc.port = false)
    (hlt : es.length < cfg.failureThreshold) :
    (runCycles cfg es w).active = w.active ∧
    (runCycles cfg es w).counts a = es.length ∧
    (∀ s, s ≠ a → (runCycles cfg es w).counts s = w.counts s) ∧
    (runCycles cfg es w).record = w.record ∧
    (runCycles cfg es w).writeLog = w.writeLog := by
  have h := degraded_run cfg es w a asc ha hne hfind hprobe (by omega)
  refine ⟨h.1, ?_, h.2.2.1, h.2.2.2.1, h.2.2.2.2⟩
  rw [h.2.1, hzero]
  exact Nat.zero_add _

theorem c8_degraded_cycles_witness :
    (runCycles cfg0 [envAllDown] w0).active = w0.active ∧
    (runCycles cfg0 [envAllDown] w0).counts "alpha" = 1 ∧
    (runCycles cfg0 [envAllDown] w0).counts "beta" = w0.counts "beta" ∧
    (runCycles cfg0 [envAllDown] w0).record = w0.record ∧
    (runCycles cfg0 [envAllDown] w0).writeLog = w0.writeLog := by
  have h := c8_degraded_cycles cfg0 [envAllDown] w0 "alpha" srvA rfl (by decide)
    (by decide) (by decide) (by decide) (by decide)
  exact ⟨h.1, h.2.1, h.2.2.1 "beta" (by decide), h.2.2.2.1, h.2.2.2.2⟩

/-- C2: a switch attempt whose record re-fetch fails (store unreachable or
record missing) or whose update is rejected returns failure and leaves the
active pointer, every failure count and the stored record exactly as at
invocation: no partial state change and, the executor being called at most
once per cycle, no retry within it. -/
theorem c2_switch_failure_atomic (cfg : Config) (env : Env) (w : World) (n : String)
    (h : getDnsRecord cfg env w.record = none ∨ env.updateOk = false) :
    (switchToServer cfg env w n).1 = false ∧
    (switchToServer cfg env w n).2.active = w.active ∧
    (∀ s, (switchToServer cfg env w n).2.counts s = w.counts s) ∧
    (switchToServer cfg env w n).2.record = w.record := by
  unfold switchToServer
  cases hf : findServer cfg.servers n with
  | none => exact ⟨rfl, rfl, fun s => rfl, rfl⟩
  | some sc =>
      cases hg : getDnsRecord cfg env w.record with
      | none => exact ⟨rfl, rfl, fun s => rfl, rfl⟩
      | some rec =>
          have hupd : env.updateOk = false := by
            rcases h with h | h
            · rw [hg] at h
              cases h
            · exact h
          simp [updateDnsRecord, hupd]

theorem c2_switch_failure_atomic_witness :
    (getDnsRecord cfg0 envNoWrite w0.record = none ∨ envNoWrite.updateOk = false) ∧
    (switchToServer cfg0 envNoWrite w0 "beta").1 = false ∧
    (switchToServer cfg0 envNoWrite w0 "beta").2.active = w0.active ∧
    (switchToServer cfg0 envNoWrite w0 "beta").2.counts "beta" = w0.counts "beta" ∧
    (switchToServer cfg0 envNoWrite w0 "beta").2.record = w0.record := by
  have h := c2_switch_failure_atomic cfg0 envNoWrite w0 "beta" (Or.inr (by decide))
  exact ⟨Or.inr (by decide), h.1, h.2.1, h.2.2.1 "beta", h.2.2.2⟩

/-- C5 counterexample: the fetch succeeds and returns the record with
ttl 600, yet the issued update request carries the configured ttl 300 —
the ttl of the record just read is not preserved. -/
theorem c5_counterexample :
    getDnsRecord cfg0 envAllUp w0.record = some rec0 ∧
    rec0.ttl = 600 ∧
    (switchToServer cfg0 envAllUp w0 "beta").2.writeLog =
      [⟨"rid0", "example.com", "10.0.0.2", "A", 300⟩] ∧
    (300 : Nat) ≠ 600 := by
  decide

/-- C5 amended: when the re-fetch succeeds, the single update request
issued sets content to the candidate's address and carries the
configuration's record type and ttl; the type coincides with the fetched
record's type (the fetch is filtered by type), the ttl need not. -/
theorem c5_amended_update_request (cfg : Config) (env : Env) (w : World) (n : String)
    (sc : ServerConfig) (rec : DNSRecord)
    (hf : findServer cfg.servers n = some sc)
    (hg : getDnsRecord cfg env w.record = some rec) :
    (switchToServer cfg env w n).2.writeLog =
      w.writeLog ++ [⟨rec.id, cfg.domainName, sc.ip, cfg.recordType, cfg.ttl⟩] ∧
    rec.rtype = cfg.recordType := by
  constructor
  · unfold switchToServer
    rw [hf, hg]
    cases hupd : env.updateOk <;> simp [updateDnsRecord, hupd]
  · unfold getDnsRecord at hg
    split at hg
    · split at hg
      · split at hg
        · injection hg with h
          subst h
          assumption
        · cases hg
      · cases hg
    · cases hg

theorem c5_amended_update_request_witness :
    (switchToServer cfg0 envAllUp w0 "beta").2.writeLog =
      w0.writeLog ++ [⟨rec0.id, cfg0.domainName, srvB.ip, cfg0.recordType, cfg0.ttl⟩] ∧
    rec0.rtype = cfg0.recordType :=
  c5_amended_update_request cfg0 envAllUp w0 "beta" srvB rec0 (by decide) (by decide)

/-- C9: the startup resolver.  A fetched record whose content matches a
configured server's address makes that server the initial active server
(no write is issued at construction); a missing record, a failed read or a
content matching no server falls back to the min-priority server, so the
active server is never left unset. -/
theorem c9_startup_resolver (cfg : Config) (env : Env) (store : Option DNSRecord)
    (hne : cfg.servers ≠ []) :
    (∀ rec sc, getDnsRecord cfg env store = some rec →
        cfg.servers.find? (fun s => s.ip == rec.content) = some sc →
        determineActiveServer cfg env store = some sc.name ∧
          sc ∈ cfg.servers ∧ sc.ip = rec.content) ∧
    (∀ rec, getDnsRecord cfg env store = some rec →
        cfg.servers.find? (fun s => s.ip == rec.content) = none →
        determineActiveServer cfg env store = getHighestPriorityServer cfg.servers) ∧
    (getDnsRecord cfg env store = none →
        determineActiveServer cfg env store = getHighestPriorityServer cfg.servers) ∧
    (∃ m, pyMinServer cfg.servers = some m ∧ m ∈ cfg.servers ∧
        getHighestPriorityServer cfg.servers = some m.name ∧
        ∀ sc ∈ cfg.servers, m.priority ≤ sc.priority) ∧
    (initWorld cfg env store).writeLog = [] ∧
    (determineActiveServer cfg env store).isSome = true := by
  have hmin : ∃ m, pyMinServer cfg.servers = some m ∧ m ∈ cfg.servers ∧
      getHighestPriorityServer cfg.servers = some m.name ∧
      ∀ sc ∈ cfg.servers, m.priority ≤ sc.priority := by
    cases hl : cfg.servers with
    | nil => exact absurd hl hne
    | cons s rest =>
        refine ⟨pyMinFold s rest, pyMinServer_cons s rest, pyMinFold_mem s rest, ?_, ?_⟩
        · unfold getHighestPriorityServer
          rw [pyMinServer_cons]
          rfl
        · intro sc hsc
          rcases List.mem_cons.mp hsc with rfl | h'
          · exact pyMinFold_le_best _ rest
          · exact pyMinFold_le _ rest sc h'
  refine ⟨?_, ?_, ?_, hmin, rfl, ?_⟩
  · intro rec sc hg hfound
    refine ⟨?_, List.mem_of_find?_eq_some hfound, ?_⟩
    · unfold determineActiveServer
      simp only [hg, hfound]
    · have := List.find?_some hfound
      simpa using this
  · intro rec hg hnone
    unfold determineActiveServer
    simp only [hg, hnone]
  · intro hg
    unfold determineActiveServer
    simp only [hg]
  · obtain ⟨m, hm, _, hname, _⟩ := hmin
    unfold determineActiveServer
    cases hg : getDnsRecord cfg env store with
    | none => simp only [hg, hname, Option.isSome_some]
    | some rec =>
        cases hfound : cfg.servers.find? (fun s => s.ip == rec.content) with
        | none => simp only [hg, hfound, hname, Option.isSome_some]
        | some sc => simp only [hg, hfound, Option.isSome_some]

theorem c9_startup_resolver_witness :
    (determineActiveServer cfg0 envAllUp (some ⟨"rid0", "A", "10.0.0.2", 600⟩) =
      some "beta") ∧
    (determineActiveServer cfg0 envAllUp (some ⟨"rid0", "A", "9.9.9.9", 600⟩) =
      getHighestPriorityServer cfg0.servers) ∧
    (determineActiveServer cfg0 ⟨envAllUp.probe, false, true⟩ (some rec0) =
      getHighestPriorityServer cfg0.servers) ∧
    (initWorld cfg0 envAllUp (some rec0)).writeLog = [] ∧
    (determineActiveServer cfg0 envAllUp none).isSome = true := by
  have h1 := c9_startup_resolver cfg0 envAllUp (some ⟨"rid0", "A", "10.0.0.2", 600⟩)
    (by decide)
  have h2 := c9_startup_resolver cfg0 envAllUp (some ⟨"rid0", "A", "9.9.9.9", 600⟩)
    (by decide)
  have h3 := c9_startup_resolver cfg0 ⟨envAllUp.probe, false, true⟩ (some rec0) (by decide)
  have h4 := c9_startup_resolver cfg0 envAllUp (some rec0) (by decide)
  have h5 := c9_startup_resolver cfg0 envAllUp none (by decide)
  refine ⟨?_, ?_, ?_, h4.2.2.2.2.1, ?_⟩
  · exact (h1.1 ⟨"rid0", "A", "10.0.0.2", 600⟩ srvB (by decide) (by decide)).1
  · exact h2.2.1 ⟨"rid0", "A", "9.9.9.9", 600⟩ (by decide) (by decide)
  · exact h3.2.2.1 (by decide)
  · exact h5.2.2.2.2.2

/-- C10: Python's min over the server map returns the first entry (in
insertion order) attaining the minimal priority — a deterministic
tie-break. -/
theorem c10_min_priority_first (l : List ServerConfig) (h : l ≠ []) :
    ∃ m, pyMinServer l = some m ∧ m ∈ l ∧
      (∀ sc ∈ l, m.priority ≤ sc.priority) ∧
      l.find? (fun sc => sc.priority == m.priority) = some m := by
  cases l with
  | nil => exact absurd rfl h
  | cons s rest =>
      refine ⟨pyMinFold s rest, pyMinServer_cons s rest, pyMinFold_mem s rest, ?_,
        pyMinFold_find? s rest⟩
      intro sc hsc
      rcases List.mem_cons.mp hsc with rfl | h'
      · exact pyMinFold_le_best _ rest
      · exact pyMinFold_le _ rest sc h'

/-- Witness: beta (priority 2) then alpha and delta tied at priority 1 —
min returns alpha, the first of the tied pair in insertion order. -/
theorem c10_min_priority_first_witness :
    ∃ m, pyMinServer [srvB, srvA, srvD] = some m ∧ m ∈ [srvB, srvA, srvD] ∧
      (∀ sc ∈ [srvB, srvA, srvD], m.priority ≤ sc.priority) ∧
      [srvB, srvA, srvD].find? (fun sc => sc.priority == m.priority) = some m :=
  c10_min_priority_first [srvB, srvA, srvD] (by decide)

/-- C3 counterexample: threshold-tripping cycle with every probe failing:
candidate probing goes through _check_server_health, so the non-active
server beta has its stored failure count incremented from 0 to 1 by the
cycle. -/
theorem c3_counterexample :
    wDeg.active = some "alpha" ∧
    ("beta" : String) ≠ "alpha" ∧
    wDeg.counts "beta" = 0 ∧
    (checkAndFailover cfg0 envAllDown wDeg).counts "beta" = 1 := by
  decide

/-- C3 amended: on cycles that do not trip the threshold (active server
healthy, or its incremented count still below the threshold) no non-active
server's failure count changes; a tripped cycle, however, rewrites the
stored count of every candidate it probes (0 if it probes healthy,
incremented otherwise). -/
theorem c3_amended_frame (cfg : Config) (env : Env) (w : World) (a : String)
    (asc : ServerConfig)
    (ha : w.active = some a) (hne : a ≠ "")
    (hfind : findServer cfg.servers a = some asc)
    (hcase : env.probe asc.ip asc.port = true ∨ w.counts a + 1 < cfg.failureThreshold) :
    ∀ s, s ≠ a → (checkAndFailover cfg env w).counts s = w.counts s := by
  intro s hs
  cases hp : env.probe asc.ip asc.port with
  | true =>
      rw [healthy_cycle cfg env w a asc ha hne hfind hp]
      simp [hs]
  | false =>
      have hlt : w.counts a + 1 < cfg.failureThreshold := by
        rcases hcase with hc | hc
        · rw [hp] at hc
          cases hc
        · exact hc
      rw [unhealthy_cycle_noTrip cfg env w a asc ha hne hfind hp hlt]
      simp [hs]

theorem c3_amended_frame_witness :
    (checkAndFailover cfg0 envAllDown w0).counts "beta" = w0.counts "beta" :=
  c3_amended_frame cfg0 envAllDown w0 "alpha" srvA rfl (by decide) (by decide)
    (Or.inr (by decide)) "beta" (by decide)

/-- C4 counterexample: get_status probes every server through
_check_server_health, so with an unreachable server alpha its stored
failure count moves from 0 to 1 — get_status is not read-only on
FailureState. -/
theorem c4_counterexample :
    w0.counts "alpha" = 0 ∧
    (getStatus cfg0 envAllDown w0).2.counts "alpha" = 1 := by
  decide

/-- C4 amended: get_status leaves the active pointer, the stored DNS
record and the write log unchanged and reports per-server address, port,
priority and live health verdict; but it updates each server's failure
count via the probe (the snapshot shows the post-probe count, 0 for any
server reported healthy). -/
theorem c4_amended_status (cfg : Config) (env : Env) (w : World) :
    (getStatus cfg env w).1.currentActiveServer = w.active ∧
    (getStatus cfg env w).2.active = w.active ∧
    (getStatus cfg env w).2.record = w.record ∧
    (getStatus cfg env w).2.writeLog = w.writeLog ∧
    (getStatus cfg env w).1.servers.map
        (fun e => (e.name, e.ip, e.port, e.priority, e.healthy)) =
      cfg.servers.map
        (fun sc => (sc.name, sc.ip, sc.port, sc.priority, env.probe sc.ip sc.port)) ∧
    ∀ e ∈ (getStatus cfg env w).1.servers, e.healthy = true → e.failureCount = 0 := by
  have h := statusGo_spec env cfg.servers w
  exact ⟨rfl, h.1, h.2.1, h.2.2.1, h.2.2.2.1, h.2.2.2.2⟩

theorem c4_amended_status_witness :
    (getStatus cfg0 envDownA w0).1.currentActiveServer = w0.active ∧
    (getStatus cfg0 envDownA w0).2.active = w0.active ∧
    (getStatus cfg0 envDownA w0).2.record = w0.record := by
  have h := c4_amended_status cfg0 envDownA w0
  exact ⟨h.1, h.2.1, h.2.2.1⟩

/-- The switch executor either leaves active pointer and record alone, or
the update was confirmed and the new active server is the configured entry
for the requested name, with the written record pointing at its address. -/
theorem switchToServer_cases (cfg : Config) (env : Env) (w : World) (n : String) :
    ((switchToServer cfg env w n).2.active = w.active ∧
     (switchToServer cfg env w n).2.record = w.record) ∨
    (env.updateOk = true ∧
      ∃ sc ∈ cfg.servers, sc.name = n ∧
        (switchToServer cfg env w n).2.active = some n ∧
        ∃ r, (switchToServer cfg env w n).2.record = some r ∧
          r.content = sc.ip ∧ r.rtype = cfg.recordType ∧ r.ttl = cfg.ttl) := by
  unfold switchToServer
  cases hf : findServer cfg.servers n with
  | none => exact Or.inl ⟨rfl, rfl⟩
  | some sc =>
      cases hg : getDnsRecord cfg env w.record with
      | none => exact Or.inl ⟨rfl, rfl⟩
      | some rec =>
          cases hupd : env.updateOk with
          | false =>
              left
              simp [updateDnsRecord, hupd]
          | true =>
              right
              refine ⟨rfl, sc, findServer_mem hf, findServer_name hf, ?_,
                ⟨rec.id, cfg.recordType, sc.ip, cfg.ttl⟩, ?_, rfl, rfl, rfl⟩
              · simp [updateDnsRecord, hupd]
              · simp [updateDnsRecord, hupd]

/-- One cycle either preserves the active pointer, or the store confirmed
an update and the new active pointer names a configured server whose
address the written record carries. -/
theorem cycle_active_cases (cfg : Config) (env : Env) (w : World) :
    (checkAndFailover cfg env w).active = w.active ∨
    (env.updateOk = true ∧
      ∃ sc ∈ cfg.servers, (checkAndFailover cfg env w).active = some sc.name ∧
        ∃ r, (checkAndFailover cfg env w).record = some r ∧
          r.content = sc.ip ∧ r.rtype = cfg.recordType ∧ r.ttl = cfg.ttl) := by
  have hgna : ∀ w1 onext w2, getNextAvailableServer cfg env w1 = (onext, w2) →
      w2.active = w1.active := by
    intro w1 onext w2 hsel
    have : w2 = (selectGo env (sortServers cfg.servers) w1).2 := by
      unfold getNextAvailableServer at hsel
      rw [hsel]
    rw [this]
    exact (selectGo_frame env (sortServers cfg.servers) w1).1
  unfold checkAndFailover
  split
  · exact Or.inl rfl
  · rename_i a
    split
    · exact Or.inl rfl
    · split
      · exact Or.inl rfl
      · rename_i asc hf
        simp only []
        split
        · exact Or.inl (checkServerHealth_frame env w asc).1
        · split
          · split
            · rename_i hsel next w2 heq
              have hw2a : w2.active = w.active :=
                (hgna (checkServerHealth env w asc).2 (some next) w2 heq).trans
                  (checkServerHealth_frame env w asc).1
              rcases switchToServer_cases cfg env w2 next with hsame | hsw
              · exact Or.inl (hsame.1.trans hw2a)
              · obtain ⟨hupd, sc, hmem, hsc, hactive, r, hrec, hr⟩ := hsw
                right
                exact ⟨hupd, sc, hmem, by rw [hactive, hsc], r, hrec, hr⟩
            · rename_i hsel w2 heq
              exact Or.inl ((hgna (checkServerHealth env w asc).2 none w2 heq).trans
                (checkServerHealth_frame env w asc).1)
          · exact Or.inl (checkServerHealth_frame env w asc).1

/-- C6: after construction the active pointer names a configured server;
get_status never moves it; a cycle keeps it inside the configured set and
moves it only when the store confirmed a DNS update, the written record
then carrying the new active server's address. -/
theorem c6_active_invariant (cfg : Config) :
    (∀ env store, cfg.servers ≠ [] →
        ∃ sc ∈ cfg.servers, (initWorld cfg env store).active = some sc.name) ∧
    (∀ env w, (getStatus cfg env w).2.active = w.active) ∧
    (∀ env w a, w.active = some a → (∃ sc ∈ cfg.servers, a = sc.name) →
        ∃ sc ∈ cfg.servers, (checkAndFailover cfg env w).active = some sc.name) ∧
    (∀ env w, (checkAndFailover cfg env w).active ≠ w.active →
        env.updateOk = true ∧
        ∃ sc ∈ cfg.servers, (checkAndFailover cfg env w).active = some sc.name ∧
          ∃ r, (checkAndFailover cfg env w).record = some r ∧
            r.content = sc.ip ∧ r.rtype = cfg.recordType ∧ r.ttl = cfg.ttl) := by
  refine ⟨?_, ?_, ?_, ?_⟩
  · intro env store hne
    unfold initWorld
    simp only []
    unfold determineActiveServer
    cases hg : getDnsRecord cfg env store with
    | some rec =>
        cases hfound : cfg.servers.find? (fun s => s.ip == rec.content) with
        | some sc =>
            exact ⟨sc, List.mem_of_find?_eq_some hfound, by simp only [hg, hfound]⟩
        | none =>
            cases hl : cfg.servers with
            | nil => exact absurd hl hne
            | cons s rest =>
                rw [hl] at hfound
                refine ⟨pyMinFold s rest, hl ▸ pyMinFold_mem s rest, ?_⟩
                simp only [hg, hfound, pyMinServer_cons]
                rfl
    | none =>
        cases hl : cfg.servers with
        | nil => exact absurd hl hne
        | cons s rest =>
            refine ⟨pyMinFold s rest, hl ▸ pyMinFold_mem s rest, ?_⟩
            simp only [hg, pyMinServer_cons]
            rfl
  · intro env w
    exact (statusGo_spec env cfg.servers w).1
  · intro env w a ha hmem
    rcases cycle_active_cases cfg env w with hsame | hsw
    · obtain ⟨sc, hscmem, hsc⟩ := hmem
      exact ⟨sc, hscmem, by rw [hsame, ha, hsc]⟩
    · obtain ⟨_, sc, hscmem, hactive, _⟩ := hsw
      exact ⟨sc, hscmem, hactive⟩
  · intro env w hchange
    rcases cycle_active_cases cfg env w with hsame | hsw
    · exact absurd hsame hchange
    · exact hsw

theorem c6_active_invariant_witness :
    (∃ sc ∈ cfg0.servers, (initWorld cfg0 envAllUp (some rec0)).active = some sc.name) ∧
    (getStatus cfg0 envAllUp w0).2.active = w0.active ∧
    (∃ sc ∈ cfg0.servers, (checkAndFailover cfg0 envAllUp w0).active = some sc.name) := by
  have h := c6_active_invariant cfg0
  exact ⟨h.1 envAllUp (some rec0) (by decide), h.2.1 envAllUp w0,
    h.2.2.1 envAllUp w0 "alpha" rfl ⟨srvA, by decide, rfl⟩⟩

/-- C1: with threshold T, the active server probing unhealthy for T
consecutive cycles (count starting at 0), and on the T-th cycle at least
one other configured server probing healthy while the store's read and
write succeed: the engine switches on the T-th cycle to a non-active
healthy server of minimal priority among the healthy alternatives, that
server's count becomes 0, and the stored DNS record's content is its
address afterward. -/
theorem c1_failover_on_threshold (cfg : Config) (es : List Env) (eT : Env)
    (w : World) (a : String) (asc : ServerConfig) (rec : DNSRecord)
    (hlen : es.length + 1 = cfg.failureThreshold)
    (ha : w.active = some a) (hane : a ≠ "")
    (hfind : findServer cfg.servers a = some asc)
    (hnodup : (cfg.servers.map (·.name)).Nodup)
    (hzero : w.counts a = 0)
    (hrec : w.record = some rec) (hrt : rec.rtype = cfg.recordType)
    (hprobes : ∀ e ∈ es, e.probe asc.ip asc.port = false)
    (hprobeT : eT.probe asc.ip asc.port = false)
    (hget : eT.getOk = true) (hupd : eT.updateOk = true)
    (hcand : ∃ sc ∈ cfg.servers, sc.name ≠ a ∧ eT.probe sc.ip sc.port = true) :
    ∃ winner ∈ cfg.servers,
      winner.name ≠ a ∧ eT.probe winner.ip winner.port = true ∧
      (∀ sc ∈ cfg.servers, sc.name ≠ a → eT.probe sc.ip sc.port = true →
        winner.priority ≤ sc.priority) ∧
      (runCycles cfg (es ++ [eT]) w).active = some winner.name ∧
      (runCycles cfg (es ++ [eT]) w).counts winner.name = 0 ∧
      (runCycles cfg (es ++ [eT]) w).record =
        some ⟨rec.id, cfg.recordType, winner.ip, cfg.ttl⟩ := by
  have hrun := degraded_run cfg es w a asc ha hane hfind hprobes (by omega)
  have h1a : (runCycles cfg es w).active = some a := by rw [hrun.1, ha]
  have h1rec : (runCycles cfg es w).record = some rec := by rw [hrun.2.2.2.1, hrec]
  have h1cnt : (runCycles cfg es w).counts a = es.length := by
    rw [hrun.2.1, hzero]
    exact Nat.zero_add _
  have htrip : cfg.failureThreshold ≤ (runCycles cfg es w).counts a + 1 := by
    rw [h1cnt]
    omega
  have htr := tripped_cycle_switch cfg eT (runCycles cfg es w) a asc rec h1a hane hfind
    hnodup hprobeT htrip h1rec hrt hget hupd hcand
  have hsplit : runCycles cfg (es ++ [eT]) w =
      checkAndFailover cfg eT (runCycles cfg es w) := by
    rw [runCycles_append]
    rfl
  rw [hsplit]
  exact htr

/-- Witness: threshold 2, alpha unreachable in both cycles, beta and gamma
reachable in the second: the engine switches to beta (priority 2, the
minimal healthy alternative) and repoints the record at 10.0.0.2. -/
theorem c1_failover_on_threshold_witness :
    ∃ winner ∈ cfg0.servers,
      winner.name ≠ "alpha" ∧ envDownA.probe winner.ip winner.port = true ∧
      (∀ sc ∈ cfg0.servers, sc.name ≠ "alpha" → envDownA.probe sc.ip sc.port = true →
        winner.priority ≤ sc.priority) ∧
      (runCycles cfg0 [envAllDown, envDownA] w0).active = some winner.name ∧
      (runCycles cfg0 [envAllDown, envDownA] w0).counts winner.name = 0 ∧
      (runCycles cfg0 [envAllDown, envDownA] w0).record =
        some ⟨rec0.id, cfg0.recordType, winner.ip, cfg0.ttl⟩ :=
  c1_failover_on_threshold cfg0 [envAllDown] envDownA w0 "alpha" srvA rec0
    (by decide) rfl (by decide) rfl (by decide) rfl rfl (by decide)
    (by decide) (by decide) (by decide) (by decide)
    ⟨srvB, by decide, by decide, by decide⟩

end DNSFailover
